import Mathlib

/-!
Verification of the categories CRUD service
(`src/modules/categories`): a shallow embedding of the model, repository,
use-case and HTTP-adapter layers, with theorems settling the claims of
the specification.

The relational store is modelled as an in-memory list of rows
(`Store := List Category`), and each Sequelize call
(`findByPk`, `findAll`, `count`, `create`, `update`, `destroy`) as the
corresponding pure operation on that list.  Time (`new Date()`) is a
`Nat` parameter supplied per invocation, and `uuid.v7()` id generation is
a `String` parameter; freshness of a generated id appears as a hypothesis
where a claim needs it.
-/

/-- The `ModelStatus` from `share/model/base-model` (used as
`ENUM("active","inactive","deleted")` in `infras/repository/dto.ts`). -/
inductive ModelStatus where
  | active
  | inactive
  | deleted
deriving DecidableEq, Repr

/-- The `Category` entity (`model/model.ts`): `id` is the opaque string
identifier (a uuid in the implementation), optional fields are `Option`,
timestamps are `Nat` instants. -/
structure Category where
  id : String
  name : String
  image : Option String := none
  position : Option Int := none
  description : Option String := none
  parent_id : Option String := none
  status : ModelStatus
  created_at : Nat
  updated_at : Nat
deriving DecidableEq, Repr

/-- The persisted table: one row per `Category`. -/
abbrev Store := List Category

/-- The `CreateCategoryDTO` (`model/dto.ts`): the parsed create payload. -/
structure CreateCategoryDTO where
  name : String
  image : Option String := none
  position : Option Int := none
  description : Option String := none
  parent_id : Option String := none
  status : Option ModelStatus := none
deriving DecidableEq, Repr

/-- The `UpdateCategoryDTO` (`model/dto.ts`): all fields optional; an absent
field leaves the stored value unchanged. -/
structure UpdateCategoryDTO where
  name : Option String := none
  image : Option String := none
  position : Option Int := none
  description : Option String := none
  parent_id : Option String := none
  status : Option ModelStatus := none
deriving DecidableEq, Repr

/-- Modelled from the spec: `CategoryConDTO` (`share`/`model/dto.ts`
version absent from the snapshot) — "an arbitrary subset of Category
fields used as an equality filter" (§4.1), with `status` among the
filterable fields (§6 lists `status=` as a list-query parameter). -/
structure CategoryConDTO where
  name : Option String := none
  image : Option String := none
  position : Option Int := none
  description : Option String := none
  parent_id : Option String := none
  status : Option ModelStatus := none
deriving DecidableEq, Repr

/-- The `PagingDTO` (`share/model/paging`): page/limit supplied by the
caller; `total` is written back by `list`. -/
structure PagingDTO where
  page : Nat
  limit : Nat
  total : Option Nat := none
deriving DecidableEq, Repr

/-- Error values thrown by the layers: `ErrDataNotFound` from
`share/model/base-error`, and a store-level failure (e.g. the exception
Sequelize `create` raises on a duplicate primary key). -/
inductive AppError where
  | dataNotFound
  | storeError
deriving DecidableEq, Repr

instance {ε α : Type} [DecidableEq ε] [DecidableEq α] : DecidableEq (Except ε α) :=
  fun a b =>
    match a, b with
    | Except.ok x, Except.ok y =>
      if h : x = y then Decidable.isTrue (by rw [h])
      else Decidable.isFalse (by intro hc; cases hc; exact h rfl)
    | Except.error x, Except.error y =>
      if h : x = y then Decidable.isTrue (by rw [h])
      else Decidable.isFalse (by intro hc; cases hc; exact h rfl)
    | Except.ok _, Except.error _ => Decidable.isFalse (by intro hc; cases hc)
    | Except.error _, Except.ok _ => Decidable.isFalse (by intro hc; cases hc)

/-! ## Store primitives (the Sequelize calls made by the repository) -/

/-- The `models[modelName].findByPk(id)`: the first row whose primary key
matches, if any. -/
def findByPk (s : Store) (id : String) : Option Category :=
  s.find? (fun c => c.id == id)

/-- Apply an `UpdateCategoryDTO` to one row: provided fields are written,
absent fields are kept.  Sequelize (`timestamps:true`,
`updatedAt:"updated_at"`) also stamps `updated_at` on every `update`. -/
def applyPatch (d : UpdateCategoryDTO) (now : Nat) (c : Category) : Category :=
  { c with
    name := d.name.getD c.name
    image := match d.image with | some v => some v | none => c.image
    position := match d.position with | some v => some v | none => c.position
    description := match d.description with | some v => some v | none => c.description
    parent_id := match d.parent_id with | some v => some v | none => c.parent_id
    status := d.status.getD c.status
    updated_at := now }

/-- The `models[modelName].update(data, {where:{id}})`: patch every row whose
primary key matches. -/
def updateWhereId (s : Store) (id : String) (d : UpdateCategoryDTO) (now : Nat) : Store :=
  s.map (fun c => if c.id == id then applyPatch d now c else c)

/-- The `models[modelName].destroy({where:{id}})`: remove every row whose
primary key matches. -/
def destroyWhereId (s : Store) (id : String) : Store :=
  s.filter (fun c => !(c.id == id))

/-- The non-`status` keys of the list condition, read as an equality
filter (SQL `WHERE` with `=` per provided field). -/
def condFieldsMatch (cond : CategoryConDTO) (c : Category) : Bool :=
  (match cond.name with | some v => c.name == v | none => true) &&
  (match cond.image with | some v => c.image == some v | none => true) &&
  (match cond.position with | some v => c.position == some v | none => true) &&
  (match cond.description with | some v => c.description == some v | none => true) &&
  (match cond.parent_id with | some v => c.parent_id == some v | none => true)

/-- The condition the repository actually queries with:
`{...cond, status:{[Op.ne]:ModelStatus.DELETED}}` — the spread keeps
the keys of `cond` but the later `status` key *overrides* any `status`
in `cond`, so the effective condition is the non-status equality filter
conjoined with `status != deleted`. -/
def matchesConSQL (cond : CategoryConDTO) (c : Category) : Bool :=
  condFieldsMatch cond c && !(c.status == ModelStatus.deleted)

/-- Modelled from the spec: the list filter as the specification reads
it ("rows matching an equality filter AND status != deleted") — every
provided field of the condition, `status` included, must equal the value
stored in the row.  Used to compare the implemented behaviour with the
claimed one. -/
def matchesFilter (cond : CategoryConDTO) (c : Category) : Bool :=
  condFieldsMatch cond c &&
  (match cond.status with | some v => c.status == v | none => true)

/-- The columns of the `categories` table, as declared in the
`CategoryReposistence.init` call (`infras/repository/dto.ts`) together
with the two managed timestamp columns. -/
def categoryColumns : List String :=
  ["id", "name", "image", "parent_id", "description", "status",
   "created_at", "updated_at"]

/-- The `order` argument the repository passes to `findAll`:
`["id","DESC"]`.  For Sequelize a top-level array of plain strings is a
list of order *items*, each naming a column; a direction is read only
inside a nested item such as `[["id","DESC"]]`.  So this argument
requests ordering by the two columns `id` and `DESC`, not a descending
sort. -/
def orderArg : List String := ["id", "DESC"]

/-- The `findAll({where, limit, offset, order})` call.  Modelled from
Sequelize/MySQL semantics: each string in `order` is quoted as a column
in the generated `ORDER BY`; if any of them is not a column of the
table, the query fails (MySQL unknown-column error) and the promise
rejects.  With this repository's `orderArg`, the column `DESC` does not
exist, so the call always rejects; the success branch (reached only for
valid column lists, hence unreachable here — no row ordering is
asserted for it) would return the matching window of rows. -/
def findAllWhere (s : Store) (cond : CategoryConDTO) (limit offset : Nat) :
    Except AppError (List Category) :=
  if orderArg.all (fun col => categoryColumns.contains col) then
    Except.ok (((s.filter (matchesConSQL cond)).drop offset).take limit)
  else
    Except.error AppError.storeError

/-! ## Repository (`infras/repository/repo.ts`, `MySQLCategoryRepository`) -/

/-- The `get(id)`: `findByPk`, `null` when absent.  (`CategorySchema.parse`
on the fetched row is the identity on the typed rows of this model.) -/
def repoGet (s : Store) (id : String) : Option Category :=
  findByPk s id

/-- The `list(cond, paging)`: first `count` the rows matching
`{...cond, status:{ne:deleted}}` (this query has no `order` and
succeeds) and write the count back into the paging object
(`paging.total = total`); then `findAll` with
`offset = (page-1)*limit` and the malformed `orderArg` — which rejects,
so `list` rejects after the write-back.  The first component is the
state of the caller-supplied paging object after the call, the second
the promise outcome. -/
def repoList (cond : CategoryConDTO) (paging : PagingDTO) (s : Store) :
    PagingDTO × Except AppError (List Category) :=
  let total := (s.filter (matchesConSQL cond)).length
  ({ paging with total := some total },
   findAllWhere s cond paging.limit ((paging.page - 1) * paging.limit))

/-- The `insert(data)`: Sequelize `create` throws on a duplicate primary key
and otherwise returns the created row (truthy, so `insert` resolves
`true`). -/
def repoInsert (s : Store) (c : Category) : Except AppError (Bool × Store) :=
  if s.any (fun r => r.id == c.id) then
    Except.error AppError.storeError
  else
    Except.ok (true, s ++ [c])

/-- The `update(id, data)`: Sequelize `update` resolves `[affectedCount]`,
an array and hence truthy, so the repository returns `true` (even when
no row matched). -/
def repoUpdate (s : Store) (id : String) (d : UpdateCategoryDTO) (now : Nat) :
    Bool × Store :=
  (true, updateWhereId s id d now)

/-- The partial update a soft delete issues:
`update({status: ModelStatus.DELETED}, {where:{id}})`. -/
def softDeletePatch : UpdateCategoryDTO :=
  { status := some ModelStatus.deleted }

/-- The `delete(id, isHard)`: `destroy` when hard (its row count is falsy
when zero rows matched), otherwise the soft-delete status update (whose
`[affectedCount]` result is always truthy). -/
def repoDelete (s : Store) (id : String) (isHard : Bool) (now : Nat) :
    Bool × Store :=
  if isHard then
    (s.any (fun c => c.id == id), destroyWhereId s id)
  else
    (true, updateWhereId s id softDeletePatch now)

/-! ## Use case (`usecase/index.ts`, `CategoryUseCase`) -/

/-- The shared absent-or-soft-deleted guard:
`!data || data.status === ModelStatus.DELETED`. -/
def notFoundCond (s : Store) (id : String) : Prop :=
  repoGet s id = none ∨ ∃ c, repoGet s id = some c ∧ c.status = ModelStatus.deleted

instance (s : Store) (id : String) : Decidable (notFoundCond s id) :=
  match h : repoGet s id with
  | none => Decidable.isTrue (Or.inl h)
  | some c =>
    if hd : c.status = ModelStatus.deleted then
      Decidable.isTrue (Or.inr ⟨c, h, hd⟩)
    else
      Decidable.isFalse (by
        rintro (h1 | ⟨c', hc', hd'⟩)
        · rw [h] at h1; exact Option.noConfusion h1
        · rw [h] at hc'; cases hc'; exact hd hd')

/-- The `getDetailCategory(id)`: fetch, throw `ErrDataNotFound` when the row
is absent or has status `deleted`, otherwise return it. -/
def getDetailCategory (s : Store) (id : String) : Except AppError Category :=
  match repoGet s id with
  | none => Except.error AppError.dataNotFound
  | some c =>
    if c.status = ModelStatus.deleted then Except.error AppError.dataNotFound
    else Except.ok c

/-- The `UpdateCategory(id, data)`: the same absent-or-deleted guard, then
`repository.update`. -/
def UpdateCategory (s : Store) (id : String) (d : UpdateCategoryDTO) (now : Nat) :
    Except AppError (Bool × Store) :=
  match repoGet s id with
  | none => Except.error AppError.dataNotFound
  | some c =>
    if c.status = ModelStatus.deleted then Except.error AppError.dataNotFound
    else Except.ok (repoUpdate s id d now)

/-- The `DeleteCategory(id, isHard)`: the same absent-or-deleted guard (it
applies to hard deletes too), then `repository.delete`. -/
def DeleteCategory (s : Store) (id : String) (isHard : Bool) (now : Nat) :
    Except AppError (Bool × Store) :=
  match repoGet s id with
  | none => Except.error AppError.dataNotFound
  | some c =>
    if c.status = ModelStatus.deleted then Except.error AppError.dataNotFound
    else Except.ok (repoDelete s id isHard now)

/-- The `ListCategory(cond, paging)`: pass-through to `repository.list`
(an `await` on a rejecting promise re-throws, so the rejection
propagates unchanged). -/
def ListCategory (cond : CategoryConDTO) (paging : PagingDTO) (s : Store) :
    PagingDTO × Except AppError (List Category) :=
  repoList cond paging s

/-- The full `Category` the use case constructs in `CreateANewCategory`:
generated id, `status: ModelStatus.ACTIVE`, `created_at` and
`updated_at` both stamped at the invocation instant. -/
def mkNewCategory (d : CreateCategoryDTO) (newID : String) (now : Nat) : Category :=
  { id := newID
    name := d.name
    image := d.image
    position := d.position
    description := d.description
    parent_id := d.parent_id
    status := ModelStatus.active
    created_at := now
    updated_at := now }

/-- The `CreateANewCategory(data)`: build the entity, `await insert`
(a thrown store error propagates; the resolved boolean is ignored), and
return the generated id. -/
def CreateANewCategory (s : Store) (d : CreateCategoryDTO) (newID : String) (now : Nat) :
    Except AppError (String × Store) :=
  match repoInsert s (mkNewCategory d newID now) with
  | Except.error e => Except.error e
  | Except.ok (_, s') => Except.ok (newID, s')

/-! ## Validation (`model/dto.ts` zod schemas, modelled) -/

/-- Untrusted request body for create/update: each field either absent or
present with the JSON type the schema expects (`position` as an arbitrary
JSON number, hence a rational; `status` as a raw string). -/
structure RawBody where
  name : Option String := none
  image : Option String := none
  position : Option Rat := none
  description : Option String := none
  parent_id : Option String := none
  status : Option String := none
deriving DecidableEq, Repr

/-- Modelled from the external zod validator `z.string().url()`: a
scheme, the literal separator, and a nonempty remainder. -/
def isValidUrl (s : String) : Bool :=
  match s.splitOn "://" with
  | [scheme, rest] => !scheme.isEmpty && !rest.isEmpty
  | _ => false

/-- Hexadecimal digit test for uuid validation. -/
def isHexDigit (c : Char) : Bool :=
  c.isDigit || ('a' ≤ c && c ≤ 'f') || ('A' ≤ c && c ≤ 'F')

/-- Modelled from the external zod validator `z.string().uuid()`: the
8-4-4-4-12 hexadecimal shape with hyphens at positions 8, 13, 18, 23. -/
def isValidUuid (s : String) : Bool :=
  s.length == 36 &&
  (s.toList.enum.all fun p =>
    if p.1 == 8 || p.1 == 13 || p.1 == 18 || p.1 == 23 then p.2 == '-'
    else isHexDigit p.2)

/-- The `CategoryStatusEnum` parse: the three admitted literals (the
enumeration includes "deleted"). -/
def parseStatus (s : String) : Option ModelStatus :=
  if s == "active" then some ModelStatus.active
  else if s == "inactive" then some ModelStatus.inactive
  else if s == "deleted" then some ModelStatus.deleted
  else none

/-- Required `name`: `z.string().min(1).max(50)`. -/
def validateName (o : Option String) : Option String :=
  match o with
  | none => none
  | some n => if 1 ≤ n.length && n.length ≤ 50 then some n else none

/-- Optional `name` (update schema): same bounds when present. -/
def validateNameOpt (o : Option String) : Option (Option String) :=
  match o with
  | none => some none
  | some n => if 1 ≤ n.length && n.length ≤ 50 then some (some n) else none

/-- Optional `image`: `z.string().url().max(100)`. -/
def validateImage (o : Option String) : Option (Option String) :=
  match o with
  | none => some none
  | some i => if isValidUrl i && i.length ≤ 100 then some (some i) else none

/-- Optional `position`: `z.number().int()` — a JSON number that is an
integer. -/
def validatePosition (o : Option Rat) : Option (Option Int) :=
  match o with
  | none => some none
  | some q => if q.den = 1 then some (some q.num) else none

/-- Optional `description`: `z.string().max(50)`. -/
def validateDescription (o : Option String) : Option (Option String) :=
  match o with
  | none => some none
  | some d => if d.length ≤ 50 then some (some d) else none

/-- Optional `parent_id`: `z.string().uuid()`. -/
def validateParentId (o : Option String) : Option (Option String) :=
  match o with
  | none => some none
  | some p => if isValidUuid p then some (some p) else none

/-- Optional `status`: `CategoryStatusEnum.optional()`. -/
def validateStatus (o : Option String) : Option (Option ModelStatus) :=
  match o with
  | none => some none
  | some st => (parseStatus st).map some

/-- The `CreateCategorySchema.safeParse`: `some` parsed DTO on success,
`none` on any field violation. -/
def parseCreate (b : RawBody) : Option CreateCategoryDTO := do
  let name ← validateName b.name
  let image ← validateImage b.image
  let position ← validatePosition b.position
  let description ← validateDescription b.description
  let parent_id ← validateParentId b.parent_id
  let status ← validateStatus b.status
  pure { name := name, image := image, position := position,
         description := description, parent_id := parent_id, status := status }

/-- The `UpdateCategorySchema.safeParse`: all fields optional. -/
def parseUpdate (b : RawBody) : Option UpdateCategoryDTO := do
  let name ← validateNameOpt b.name
  let image ← validateImage b.image
  let position ← validatePosition b.position
  let description ← validateDescription b.description
  let parent_id ← validateParentId b.parent_id
  let status ← validateStatus b.status
  pure { name := name, image := image, position := position,
         description := description, parent_id := parent_id, status := status }

/-! ## HTTP adapter (`CategoryHttpService`, hexagon transport) -/

/-- Response bodies the handlers produce, reduced to what the claims
inspect. -/
inductive HttpBody where
  | noBody
  | cat (c : Category)
  | newId (id : String)
deriving DecidableEq, Repr

/-- Outcome of one handler invocation: an HTTP response, or an exception
that escaped the handler (the class has no try/catch, so a `throw` from
the use case rejects the handler promise). -/
inductive HttpOut where
  | response (status : Nat) (body : HttpBody)
  | uncaught (e : AppError)
deriving DecidableEq, Repr

/-- The `CreateANewCategoryAPI`: 400 on schema failure (the use case is
never invoked and the store is untouched); otherwise invoke
`CreateANewCategory` — a thrown store error escapes uncaught; a falsy
resolved id (the empty string) gives the 400 "creation failed" branch;
otherwise 201 with the new id. -/
def CreateANewCategoryAPI (s : Store) (b : RawBody) (newID : String) (now : Nat) :
    HttpOut × Store :=
  match parseCreate b with
  | none => (HttpOut.response 400 HttpBody.noBody, s)
  | some dto =>
    match CreateANewCategory s dto newID now with
    | Except.error e => (HttpOut.uncaught e, s)
    | Except.ok (id, s') =>
      if id.isEmpty then (HttpOut.response 400 HttpBody.noBody, s')
      else (HttpOut.response 201 (HttpBody.newId id), s')

/-- The `getDetailCategoryAPI`: 400 when the id path parameter is absent;
then `await this.useCase.getDetailCategory(id)` with no surrounding
try/catch, so the `ErrDataNotFound` the use case throws escapes the
handler; on a resolved category the 200 response.  The `if(!category)`
404 branch of the source requires the use case to resolve a null-ish
value, which `getDetailCategory` never does (it throws instead), so that
branch is unreachable. -/
def getDetailCategoryAPI (s : Store) (idParam : Option String) : HttpOut :=
  match idParam with
  | none => HttpOut.response 400 HttpBody.noBody
  | some id =>
    match getDetailCategory s id with
    | Except.error e => HttpOut.uncaught e
    | Except.ok c => HttpOut.response 200 (HttpBody.cat c)

/-! ## Helper lemmas -/

/-- Patching never changes the primary key (the update DTO has no `id`
field). -/
lemma applyPatch_id (d : UpdateCategoryDTO) (now : Nat) (c : Category) :
    (applyPatch d now c).id = c.id := rfl

/-- Searching a mapped list for a key commutes with the map when the map
preserves keys. -/
lemma find?_map_id_pred (f : Category → Category) (hfid : ∀ c, (f c).id = c.id)
    (s : List Category) (id : String) :
    (s.map f).find? (fun c => c.id == id) = (s.find? (fun c => c.id == id)).map f := by
  induction s with
  | nil => rfl
  | cons c cs ih =>
    rw [List.map_cons, List.find?_cons, List.find?_cons, hfid]
    cases hb : (c.id == id) with
    | false => exact ih
    | true => rfl

/-- Fetch-after-update: the first row with the key is the patched first
row with the key. -/
lemma findByPk_updateWhereId (s : Store) (id : String) (d : UpdateCategoryDTO) (now : Nat) :
    findByPk (updateWhereId s id d now) id = (findByPk s id).map (applyPatch d now) := by
  unfold findByPk updateWhereId
  rw [find?_map_id_pred _ (fun c => by split <;> rfl)]
  cases hfind : s.find? (fun c => c.id == id) with
  | none => rfl
  | some c =>
    have hc := List.find?_some hfind
    show some (if c.id == id then applyPatch d now c else c) = some (applyPatch d now c)
    rw [if_pos hc]

/-- A guard that passed rules out the not-found condition. -/
lemma notFoundCond_not (s : Store) (id : String) (c : Category)
    (h : repoGet s id = some c) (hs : c.status ≠ ModelStatus.deleted) :
    ¬ notFoundCond s id := by
  rintro (h1 | ⟨c', hc', hd'⟩)
  · rw [h] at h1; cases h1
  · rw [h] at hc'; cases hc'; exact hs hd'

/-- C1: for every id, `getDetailCategory`, `UpdateCategory` and soft
`DeleteCategory` fail with `ErrDataNotFound` exactly when the repository
has no row for that id or the stored row has status `deleted`; and a
second soft delete of the same id fails with `ErrDataNotFound` rather
than succeeding again. -/
theorem c1_notFound_guard (s : Store) (id : String) :
    (getDetailCategory s id = Except.error AppError.dataNotFound ↔ notFoundCond s id)
    ∧ (∀ d now, UpdateCategory s id d now = Except.error AppError.dataNotFound
        ↔ notFoundCond s id)
    ∧ (∀ isHard now, DeleteCategory s id isHard now = Except.error AppError.dataNotFound
        ↔ notFoundCond s id)
    ∧ (∀ now now2 b s2, DeleteCategory s id false now = Except.ok (b, s2) →
        DeleteCategory s2 id false now2 = Except.error AppError.dataNotFound) := by
  refine ⟨?_, ?_, ?_, ?_⟩
  · cases h : repoGet s id with
    | none =>
      exact iff_of_true (by simp [getDetailCategory, h]) (Or.inl h)
    | some c =>
      by_cases hs : c.status = ModelStatus.deleted
      · exact iff_of_true (by simp [getDetailCategory, h, hs]) (Or.inr ⟨c, h, hs⟩)
      · exact iff_of_false (by simp [getDetailCategory, h, hs])
          (notFoundCond_not s id c h hs)
  · intro d now
    cases h : repoGet s id with
    | none =>
      exact iff_of_true (by simp [UpdateCategory, h]) (Or.inl h)
    | some c =>
      by_cases hs : c.status = ModelStatus.deleted
      · exact iff_of_true (by simp [UpdateCategory, h, hs]) (Or.inr ⟨c, h, hs⟩)
      · exact iff_of_false (by simp [UpdateCategory, h, hs])
          (notFoundCond_not s id c h hs)
  · intro isHard now
    cases h : repoGet s id with
    | none =>
      exact iff_of_true (by simp [DeleteCategory, h]) (Or.inl h)
    | some c =>
      by_cases hs : c.status = ModelStatus.deleted
      · exact iff_of_true (by simp [DeleteCategory, h, hs]) (Or.inr ⟨c, h, hs⟩)
      · exact iff_of_false (by simp [DeleteCategory, h, hs])
          (notFoundCond_not s id c h hs)
  · intro now now2 b s2 hdel
    cases h : repoGet s id with
    | none => simp [DeleteCategory, h] at hdel
    | some c =>
      by_cases hs : c.status = ModelStatus.deleted
      · simp [DeleteCategory, h, hs] at hdel
      · simp only [DeleteCategory, h, hs, if_false, repoDelete,
          Bool.false_eq_true, ite_false] at hdel
        rw [Except.ok.injEq, Prod.mk.injEq] at hdel
        obtain ⟨hb, hs2⟩ := hdel
        subst hs2
        have hf := findByPk_updateWhereId s id softDeletePatch now
        rw [show findByPk s id = some c from h] at hf
        rw [show Option.map (applyPatch softDeletePatch now) (some c)
            = some (applyPatch softDeletePatch now c) from rfl] at hf
        have hstat : (applyPatch softDeletePatch now c).status = ModelStatus.deleted := rfl
        simp [DeleteCategory, repoGet, hf, hstat]

/-- A concrete active row used to instantiate C1. -/
def cat1 : Category :=
  { id := "a", name := "books", status := ModelStatus.active, created_at := 0, updated_at := 0 }

/-- A one-row store for the C1 witness. -/
def store1 : Store := [cat1]

/-- The C1 store after a first soft delete at instant 5. -/
def store1del : Store := updateWhereId store1 "a" softDeletePatch 5

/-- Witness for C1: instantiated at a one-row store; the first soft
delete of "a" succeeds, the second fails with `ErrDataNotFound`. -/
theorem c1_notFound_guard_witness :
    (getDetailCategory store1 "zz" = Except.error AppError.dataNotFound ↔ notFoundCond store1 "zz")
    ∧ DeleteCategory store1del "a" false 7 = Except.error AppError.dataNotFound :=
  ⟨(c1_notFound_guard store1 "zz").1,
   (c1_notFound_guard store1 "a").2.2.2 5 7 true store1del rfl⟩

/-- C2: when the generated uuid-v7 is fresh for the store (no row
carries it — uniqueness of the generator is assumed as a hypothesis),
`CreateANewCategory` succeeds returning exactly that id and appends a
row with `status = active` and `created_at = updated_at` (both stamped
at the invocation instant), and a subsequent `getDetailCategory` with
the returned id yields that row. -/
theorem c2_create_active_fresh (s : Store) (d : CreateCategoryDTO) (newID : String) (now : Nat)
    (hfresh : repoGet s newID = none) :
    CreateANewCategory s d newID now
      = Except.ok (newID, s ++ [mkNewCategory d newID now])
    ∧ getDetailCategory (s ++ [mkNewCategory d newID now]) newID
      = Except.ok (mkNewCategory d newID now)
    ∧ (mkNewCategory d newID now).status = ModelStatus.active
    ∧ (mkNewCategory d newID now).created_at = (mkNewCategory d newID now).updated_at := by
  have hany : (s.any fun r => r.id == newID) = false := by
    rw [List.any_eq_false]
    intro x hx
    have hx2 := List.find?_eq_none.mp hfresh x hx
    simpa using hx2
  have hins : repoInsert s (mkNewCategory d newID now)
      = Except.ok (true, s ++ [mkNewCategory d newID now]) := by
    unfold repoInsert
    rw [if_neg (by simp [mkNewCategory, hany])]
  have hfind2 : findByPk (s ++ [mkNewCategory d newID now]) newID
      = some (mkNewCategory d newID now) := by
    have hfresh2 : List.find? (fun c => c.id == newID) s = none := hfresh
    unfold findByPk
    rw [List.find?_append, hfresh2]
    simp [mkNewCategory]
  refine ⟨?_, ?_, rfl, rfl⟩
  · unfold CreateANewCategory
    rw [hins]
  · unfold getDetailCategory repoGet
    rw [hfind2]
    simp [mkNewCategory]

/-- The create payload used by the C2 witness. -/
def dto2 : CreateCategoryDTO := { name := "Electronics" }

/-- Witness for C2: creation into the empty store with fresh id "b". -/
theorem c2_create_active_fresh_witness :
    repoGet ([] : Store) "b" = none
    ∧ CreateANewCategory [] dto2 "b" 3 = Except.ok ("b", [mkNewCategory dto2 "b" 3])
    ∧ getDetailCategory [mkNewCategory dto2 "b" 3] "b" = Except.ok (mkNewCategory dto2 "b" 3) :=
  ⟨rfl, (c2_create_active_fresh [] dto2 "b" 3 rfl).1,
   (c2_create_active_fresh [] dto2 "b" 3 rfl).2.1⟩

/-- C5: when a row with the generated id already exists, the store-level
insert (Sequelize `create` hitting the primary-key constraint) fails by
throwing, and `CreateANewCategory` propagates that failure to its caller
instead of resolving with the new id. -/
theorem c5_insert_failure_propagates (s : Store) (d : CreateCategoryDTO) (newID : String)
    (now : Nat) (hdup : ∃ c ∈ s, c.id = newID) :
    repoInsert s (mkNewCategory d newID now) = Except.error AppError.storeError
    ∧ CreateANewCategory s d newID now = Except.error AppError.storeError
    ∧ ∀ r, CreateANewCategory s d newID now ≠ Except.ok r := by
  obtain ⟨c, hc, hid⟩ := hdup
  have hany : (s.any fun r => r.id == (mkNewCategory d newID now).id) = true := by
    rw [List.any_eq_true]
    exact ⟨c, hc, by simp [mkNewCategory, hid]⟩
  have hins : repoInsert s (mkNewCategory d newID now) = Except.error AppError.storeError := by
    unfold repoInsert
    rw [if_pos hany]
  refine ⟨hins, ?_, ?_⟩
  · unfold CreateANewCategory
    rw [hins]
  · intro r hr
    unfold CreateANewCategory at hr
    rw [hins] at hr
    cases hr

/-- A store already holding the id the generator is about to hand out. -/
def storeDup : Store :=
  [{ id := "dup", name := "old", status := ModelStatus.active, created_at := 0, updated_at := 0 }]

/-- The create payload used by the C5 witness. -/
def dto5 : CreateCategoryDTO := { name := "Phones" }

/-- Witness for C5: creating into `storeDup` with colliding id "dup"
propagates the store failure. -/
theorem c5_insert_failure_propagates_witness :
    CreateANewCategory storeDup dto5 "dup" 4 = Except.error AppError.storeError :=
  (c5_insert_failure_propagates storeDup dto5 "dup" 4 (by decide)).2.1

/-- C10: on a stored row that is not soft-deleted, `UpdateCategory` with
a DTO whose `status` is `deleted` passes the guard and writes status
`deleted` to the row — update is a second road into the soft-deleted
state — and the update schema itself admits the "deleted" literal. -/
theorem c10_update_admits_soft_delete (s : Store) (id : String) (c : Category)
    (d : UpdateCategoryDTO) (now : Nat)
    (hc : repoGet s id = some c) (hs : c.status ≠ ModelStatus.deleted)
    (hd : d.status = some ModelStatus.deleted) :
    UpdateCategory s id d now = Except.ok (true, updateWhereId s id d now)
    ∧ repoGet (updateWhereId s id d now) id = some (applyPatch d now c)
    ∧ (applyPatch d now c).status = ModelStatus.deleted
    ∧ parseUpdate { status := some "deleted" }
        = some { status := some ModelStatus.deleted } := by
  refine ⟨?_, ?_, ?_, rfl⟩
  · simp [UpdateCategory, hc, hs, repoUpdate]
  · unfold repoGet
    rw [findByPk_updateWhereId, show findByPk s id = some c from hc]
    rfl
  · simp [applyPatch, hd]

/-- A concrete inactive row for the C10 witness. -/
def cat10 : Category :=
  { id := "u", name := "toys", status := ModelStatus.inactive, created_at := 0, updated_at := 0 }

/-- The update payload carrying status deleted for the C10 witness. -/
def dto10 : UpdateCategoryDTO := { status := some ModelStatus.deleted }

/-- Witness for C10: updating the inactive row "u" with status deleted
succeeds and leaves the row soft-deleted. -/
theorem c10_update_admits_soft_delete_witness :
    UpdateCategory [cat10] "u" dto10 9 = Except.ok (true, updateWhereId [cat10] "u" dto10 9)
    ∧ (applyPatch dto10 9 cat10).status = ModelStatus.deleted :=
  ⟨(c10_update_admits_soft_delete [cat10] "u" cat10 dto10 9 rfl (by decide) rfl).1,
   (c10_update_admits_soft_delete [cat10] "u" cat10 dto10 9 rfl (by decide) rfl).2.2.1⟩

/-- C3, behaviour at the failing input: on a NotFound id the use case
throws `ErrDataNotFound` and — `getDetailCategoryAPI` having no
try/catch — the exception escapes the adapter uncaught instead of
becoming a 404 response; the missing-parameter 400 path and the success
200 path behave as the claim states. -/
theorem c3_notFound_escapes_adapter :
    getDetailCategoryAPI [] (some "missing") = HttpOut.uncaught AppError.dataNotFound
    ∧ getDetailCategoryAPI [] none = HttpOut.response 400 HttpBody.noBody
    ∧ getDetailCategoryAPI store1 (some "a") = HttpOut.response 200 (HttpBody.cat cat1) :=
  ⟨rfl, rfl, rfl⟩

/-- A row that is already soft-deleted, for C7. -/
def catDel : Category :=
  { id := "d", name := "gone", status := ModelStatus.deleted, created_at := 0, updated_at := 0 }

/-- A store whose only row is soft-deleted, for C7. -/
def storeDel : Store := [catDel]

/-- C7 counterexample: on a store whose row for "d" is already
soft-deleted, the use-case hard delete does not remove the row — the
absent-or-deleted guard runs before the hard flag is consulted, so the
call fails with `ErrDataNotFound`. -/
theorem c7_counterexample :
    catDel ∈ storeDel ∧ catDel.status = ModelStatus.deleted
    ∧ DeleteCategory storeDel "d" true 3 = Except.error AppError.dataNotFound :=
  ⟨List.mem_cons_self _ _, rfl, rfl⟩

/-- C7 amended: for a stored row that is *not* soft-deleted, the
use-case hard delete physically removes every row with that id; for an
already soft-deleted row the use-case hard delete fails with
`ErrDataNotFound` (only the repository-layer delete ignores status). -/
theorem c7_hard_delete_amended (s : Store) (id : String) (c : Category) (now : Nat)
    (hc : repoGet s id = some c) :
    (c.status ≠ ModelStatus.deleted →
      DeleteCategory s id true now = Except.ok (true, destroyWhereId s id)
      ∧ ∀ r ∈ destroyWhereId s id, r.id ≠ id)
    ∧ (c.status = ModelStatus.deleted →
      DeleteCategory s id true now = Except.error AppError.dataNotFound) := by
  constructor
  · intro hs
    constructor
    · have hcfind : List.find? (fun x => x.id == id) s = some c := hc
      have hcid := List.find?_some hcfind
      have hany : (s.any fun x => x.id == id) = true := by
        rw [List.any_eq_true]
        exact ⟨c, List.mem_of_find?_eq_some hcfind, hcid⟩
      simp [DeleteCategory, hc, hs, repoDelete, hany]
    · intro r hr
      have hmem := List.mem_filter.mp hr
      simpa using hmem.2
  · intro hs
    simp [DeleteCategory, hc, hs]

/-- A live row for the C7 amended witness. -/
def cat7 : Category :=
  { id := "e", name := "live", status := ModelStatus.active, created_at := 0, updated_at := 0 }

/-- Witness for the amended C7: hard delete removes the live row "e" and
fails with `ErrDataNotFound` on the soft-deleted row "d". -/
theorem c7_hard_delete_amended_witness :
    DeleteCategory [cat7] "e" true 2 = Except.ok (true, destroyWhereId [cat7] "e")
    ∧ DeleteCategory storeDel "d" true 2 = Except.error AppError.dataNotFound :=
  ⟨((c7_hard_delete_amended [cat7] "e" cat7 2 rfl).1 (by decide)).1,
   (c7_hard_delete_amended storeDel "d" catDel 2 rfl).2 rfl⟩

/-- One active row with a numeric string id, for C8. -/
def mkRow (i : Nat) : Category :=
  { id := toString i, name := "n", status := ModelStatus.active, created_at := 0, updated_at := 0 }

/-- Fifteen active rows, for C8. -/
def store15 : Store := (List.range 15).map mkRow

/-- The empty list condition (no equality constraints). -/
def condAll : CategoryConDTO := {}

/-- C8, behaviour at the failing input: on a store with exactly 15 rows
matching the condition, `list` at page 1 / limit 10 does write
`total = 15` back into the caller-supplied paging object (the `count`
query succeeds and the write-back precedes the `findAll` call), but it
never returns the claimed 10 rows: the malformed `order:["id","DESC"]`
names the nonexistent column `DESC`, `findAll` rejects, and `list`
rejects. -/
theorem c8_pagination_bug :
    (store15.filter (matchesConSQL condAll)).length = 15
    ∧ (repoList condAll ⟨1, 10, none⟩ store15).1 = ⟨1, 10, some 15⟩
    ∧ (repoList condAll ⟨1, 10, none⟩ store15).2 = Except.error AppError.storeError
    ∧ (orderArg.all fun col => categoryColumns.contains col) = false := by decide

/-- Schema failure on the `name` key kills the whole parse. -/
lemma parseCreate_none_name (b : RawBody) (h : validateName b.name = none) :
    parseCreate b = none := by
  simp [parseCreate, h]

/-- Schema failure on the `image` key kills the whole parse. -/
lemma parseCreate_none_image (b : RawBody) (h : validateImage b.image = none) :
    parseCreate b = none := by
  unfold parseCreate
  cases validateName b.name <;> simp [h]

/-- Schema failure on the `position` key kills the whole parse. -/
lemma parseCreate_none_position (b : RawBody) (h : validatePosition b.position = none) :
    parseCreate b = none := by
  unfold parseCreate
  cases validateName b.name <;> cases validateImage b.image <;> simp [h]

/-- Schema failure on the `parent_id` key kills the whole parse. -/
lemma parseCreate_none_parent (b : RawBody) (h : validateParentId b.parent_id = none) :
    parseCreate b = none := by
  unfold parseCreate
  cases validateName b.name <;> cases validateImage b.image <;>
    cases validatePosition b.position <;> cases validateDescription b.description <;>
    simp [h]

/-- C9: on any create payload whose `name` is empty or longer than 50
characters, whose `image` is not a valid URL, whose `parent_id` is not a
valid uuid, or whose `position` is not an integer,
`CreateCategorySchema.safeParse` fails, and the create endpoint answers
400 without invoking the use case or the repository — the store is
returned unchanged. -/
theorem c9_create_validation (s : Store) (b : RawBody) (newID : String) (now : Nat)
    (hbad :
      (∃ n, b.name = some n ∧ (n.length = 0 ∨ 50 < n.length))
      ∨ (∃ i, b.image = some i ∧ isValidUrl i = false)
      ∨ (∃ p, b.parent_id = some p ∧ isValidUuid p = false)
      ∨ (∃ q, b.position = some q ∧ q.den ≠ 1)) :
    parseCreate b = none
    ∧ CreateANewCategoryAPI s b newID now = (HttpOut.response 400 HttpBody.noBody, s) := by
  have hnone : parseCreate b = none := by
    rcases hbad with ⟨n, hn, hlen⟩ | ⟨i, hi, hurl⟩ | ⟨p, hp, huuid⟩ | ⟨q, hq, hden⟩
    · apply parseCreate_none_name
      rw [hn]
      simp only [validateName]
      rcases hlen with h0 | h50
      · rw [if_neg (by simp; omega)]
      · rw [if_neg (by simp; omega)]
    · apply parseCreate_none_image
      rw [hi]
      simp only [validateImage]
      simp [hurl]
    · apply parseCreate_none_parent
      rw [hp]
      simp only [validateParentId]
      simp [huuid]
    · apply parseCreate_none_position
      rw [hq]
      simp only [validatePosition]
      rw [if_neg hden]
  exact ⟨hnone, by simp [CreateANewCategoryAPI, hnone]⟩

/-- A payload with an empty name, for the C9 witness. -/
def badBody : RawBody := { name := some "" }

/-- Witness for C9: the empty-name payload is rejected with 400 and the
store is untouched. -/
theorem c9_create_validation_witness :
    parseCreate badBody = none
    ∧ CreateANewCategoryAPI [] badBody "z" 1 = (HttpOut.response 400 HttpBody.noBody, []) :=
  c9_create_validation [] badBody "z" 1 (Or.inl ⟨"", rfl, Or.inl rfl⟩)

/-- A single active row for C4. -/
def catA : Category :=
  { id := "p", name := "phones", status := ModelStatus.active, created_at := 0, updated_at := 0 }

/-- A one-row store for C4. -/
def store4 : Store := [catA]

/-- An equality filter that demands status inactive, for C4. -/
def cond4 : CategoryConDTO := { status := some ModelStatus.inactive }

/-- C4, behaviour at the failing input: `list` never returns rows at
all — the `order:["id","DESC"]` argument names the nonexistent column
`DESC`, so `findAll` rejects and the whole call rejects, for every
filter, paging and store; nothing orders rows by id descending.  At the
concrete input the one surviving observable, the `count` write-back,
even counts the active row that fails the claimed status-inactive
equality filter, because the spread `{...cond, status:{[Op.ne]:DELETED}}`
overrides the status key of the condition. -/
theorem c4_list_order_bug :
    (∀ cond paging s, (ListCategory cond paging s).2 = Except.error AppError.storeError)
    ∧ ListCategory cond4 ⟨1, 10, none⟩ store4
        = (⟨1, 10, some 1⟩, Except.error AppError.storeError)
    ∧ matchesFilter cond4 catA = false
    ∧ (orderArg.all fun col => categoryColumns.contains col) = false := by
  refine ⟨?_, by decide, by decide, by decide⟩
  intro cond paging s
  show findAllWhere s cond paging.limit ((paging.page - 1) * paging.limit) = _
  unfold findAllWhere
  rw [if_neg (by decide)]

/-! ## The use-case operations as a transition system (for C6) -/

/-- Distinctness of primary keys. -/
def distinctIds (a b : Category) : Prop := a.id ≠ b.id

instance : DecidableRel distinctIds := fun a b =>
  inferInstanceAs (Decidable (a.id ≠ b.id))

/-- Well-formedness the relational store guarantees: `id` is a primary
key, so all rows carry distinct ids. -/
def wfStore (s : Store) : Prop := s.Pairwise distinctIds

instance (s : Store) : Decidable (wfStore s) :=
  inferInstanceAs (Decidable (s.Pairwise distinctIds))

/-- In a well-formed store two rows with the same id are the same row. -/
lemma wf_eq_of_id (s : Store) (hwf : wfStore s) (a b : Category)
    (ha : a ∈ s) (hb : b ∈ s) (hid : a.id = b.id) : a = b := by
  induction s with
  | nil => cases ha
  | cons c cs ih =>
    rw [wfStore, List.pairwise_cons] at hwf
    rcases List.mem_cons.mp ha with rfl | ha2
    · rcases List.mem_cons.mp hb with rfl | hb2
      · rfl
      · exact absurd hid (hwf.1 b hb2)
    · rcases List.mem_cons.mp hb with rfl | hb2
      · exact absurd hid.symm (hwf.1 a ha2)
      · exact ih hwf.2 ha2 hb2

/-- One invocation of an exposed use-case operation, with the
environment-supplied generated id and clock instant recorded in the
label. -/
inductive UCOp where
  | createOp (d : CreateCategoryDTO) (newID : String) (now : Nat)
  | getDetailOp (id : String)
  | updateOp (id : String) (d : UpdateCategoryDTO) (now : Nat)
  | deleteOp (id : String) (isHard : Bool) (now : Nat)
  | listOp (cond : CategoryConDTO) (paging : PagingDTO)

/-- The store after one use-case invocation (a failing invocation
leaves the store unchanged). -/
def applyOp : UCOp → Store → Store
  | UCOp.createOp d newID now, s =>
    match CreateANewCategory s d newID now with
    | Except.ok (_, s2) => s2
    | Except.error _ => s
  | UCOp.getDetailOp _, s => s
  | UCOp.updateOp id d now, s =>
    match UpdateCategory s id d now with
    | Except.ok (_, s2) => s2
    | Except.error _ => s
  | UCOp.deleteOp id isHard now, s =>
    match DeleteCategory s id isHard now with
    | Except.ok (_, s2) => s2
    | Except.error _ => s
  | UCOp.listOp _ _, s => s

/-- The store after a sequence of use-case invocations. -/
def runOps : List UCOp → Store → Store
  | [], s => s
  | op :: ops, s => runOps ops (applyOp op s)

/-- A create step whose generated id collides leaves the store
unchanged (the insert throws). -/
lemma applyOp_create_dup (s : Store) (d : CreateCategoryDTO) (newID : String) (now : Nat)
    (h : (s.any fun r => r.id == newID) = true) :
    applyOp (UCOp.createOp d newID now) s = s := by
  have h2 : (s.any fun r => r.id == (mkNewCategory d newID now).id) = true := h
  simp [applyOp, CreateANewCategory, repoInsert, h2]

/-- A create step with a fresh generated id appends the new row. -/
lemma applyOp_create_fresh (s : Store) (d : CreateCategoryDTO) (newID : String) (now : Nat)
    (h : (s.any fun r => r.id == newID) = false) :
    applyOp (UCOp.createOp d newID now) s = s ++ [mkNewCategory d newID now] := by
  have h2 : (s.any fun r => r.id == (mkNewCategory d newID now).id) = false := h
  simp [applyOp, CreateANewCategory, repoInsert, h2]

/-- An update step on an absent id leaves the store unchanged. -/
lemma applyOp_update_none (s : Store) (id : String) (d : UpdateCategoryDTO) (now : Nat)
    (hg : repoGet s id = none) :
    applyOp (UCOp.updateOp id d now) s = s := by
  simp [applyOp, UpdateCategory, hg]

/-- An update step on a soft-deleted row leaves the store unchanged. -/
lemma applyOp_update_deleted (s : Store) (id : String) (d : UpdateCategoryDTO) (now : Nat)
    (c : Category) (hg : repoGet s id = some c) (hs : c.status = ModelStatus.deleted) :
    applyOp (UCOp.updateOp id d now) s = s := by
  simp [applyOp, UpdateCategory, hg, hs]

/-- An update step on a live row patches the rows with that id. -/
lemma applyOp_update_live (s : Store) (id : String) (d : UpdateCategoryDTO) (now : Nat)
    (c : Category) (hg : repoGet s id = some c) (hs : c.status ≠ ModelStatus.deleted) :
    applyOp (UCOp.updateOp id d now) s = updateWhereId s id d now := by
  simp [applyOp, UpdateCategory, hg, hs, repoUpdate]

/-- A delete step on an absent id leaves the store unchanged. -/
lemma applyOp_delete_none (s : Store) (id : String) (isHard : Bool) (now : Nat)
    (hg : repoGet s id = none) :
    applyOp (UCOp.deleteOp id isHard now) s = s := by
  simp [applyOp, DeleteCategory, hg]

/-- A delete step on a soft-deleted row leaves the store unchanged
(hard or soft: the guard throws first). -/
lemma applyOp_delete_deleted (s : Store) (id : String) (isHard : Bool) (now : Nat)
    (c : Category) (hg : repoGet s id = some c) (hs : c.status = ModelStatus.deleted) :
    applyOp (UCOp.deleteOp id isHard now) s = s := by
  simp [applyOp, DeleteCategory, hg, hs]

/-- A hard delete step on a live row removes the rows with that id. -/
lemma applyOp_delete_live_hard (s : Store) (id : String) (now : Nat)
    (c : Category) (hg : repoGet s id = some c) (hs : c.status ≠ ModelStatus.deleted) :
    applyOp (UCOp.deleteOp id true now) s = destroyWhereId s id := by
  simp [applyOp, DeleteCategory, hg, hs, repoDelete]

/-- A soft delete step on a live row stamps status deleted on the rows
with that id. -/
lemma applyOp_delete_live_soft (s : Store) (id : String) (now : Nat)
    (c : Category) (hg : repoGet s id = some c) (hs : c.status ≠ ModelStatus.deleted) :
    applyOp (UCOp.deleteOp id false now) s = updateWhereId s id softDeletePatch now := by
  simp [applyOp, DeleteCategory, hg, hs, repoDelete]

/-- Appending a row with a fresh id keeps the store well-formed. -/
lemma wf_append_fresh (s : Store) (c : Category) (hwf : wfStore s)
    (hfresh : (s.any fun r => r.id == c.id) = false) :
    wfStore (s ++ [c]) := by
  rw [wfStore, List.pairwise_append]
  refine ⟨hwf, List.pairwise_singleton _ _, ?_⟩
  intro a ha b hb
  rw [List.mem_singleton] at hb
  subst hb
  have := List.any_eq_false.mp hfresh a ha
  show a.id ≠ b.id
  simpa using this

/-- A key-respecting update keeps the store well-formed. -/
lemma wf_updateWhereId (s : Store) (id : String) (d : UpdateCategoryDTO) (now : Nat)
    (hwf : wfStore s) : wfStore (updateWhereId s id d now) := by
  unfold wfStore updateWhereId
  rw [List.pairwise_map]
  refine List.Pairwise.imp ?_ hwf
  intro a b hab
  have ha : (if a.id == id then applyPatch d now a else a).id = a.id := by
    split <;> rfl
  have hb : (if b.id == id then applyPatch d now b else b).id = b.id := by
    split <;> rfl
  show (if a.id == id then applyPatch d now a else a).id
      ≠ (if b.id == id then applyPatch d now b else b).id
  rw [ha, hb]
  exact hab

/-- Removing rows keeps the store well-formed. -/
lemma wf_destroyWhereId (s : Store) (id : String) (hwf : wfStore s) :
    wfStore (destroyWhereId s id) :=
  List.Pairwise.sublist (List.filter_sublist _) hwf

/-- In a well-formed store, a soft-deleted row cannot be the row the
guard admitted, so its key differs from the targeted id. -/
lemma deleted_row_beq_false (s : Store) (id : String) (c r : Category) (hwf : wfStore s)
    (hg : repoGet s id = some c) (hs : c.status ≠ ModelStatus.deleted)
    (hr : r ∈ s) (hrdel : r.status = ModelStatus.deleted) :
    (r.id == id) = false := by
  have hcfind : List.find? (fun x => x.id == id) s = some c := hg
  have hcid := List.find?_some hcfind
  have hcmem := List.mem_of_find?_eq_some hcfind
  cases hrb : (r.id == id) with
  | false => rfl
  | true =>
    have hrid : r.id = id := by simpa using hrb
    have hcid2 : c.id = id := by simpa using hcid
    have hrc : r = c := wf_eq_of_id s hwf r c hr hcmem (by rw [hrid, hcid2])
    rw [hrc] at hrdel
    exact absurd hrdel hs

/-- One use-case step preserves well-formedness and keeps every
soft-deleted row untouched in the store. -/
lemma deleted_preserved_applyOp (op : UCOp) (s : Store) (hwf : wfStore s) :
    wfStore (applyOp op s)
    ∧ ∀ r ∈ s, r.status = ModelStatus.deleted → r ∈ applyOp op s := by
  cases op with
  | getDetailOp id => exact ⟨hwf, fun r hr _ => hr⟩
  | listOp cond paging => exact ⟨hwf, fun r hr _ => hr⟩
  | createOp d newID now =>
    cases h : (s.any fun r => r.id == newID) with
    | true =>
      rw [applyOp_create_dup s d newID now h]
      exact ⟨hwf, fun r hr _ => hr⟩
    | false =>
      rw [applyOp_create_fresh s d newID now h]
      exact ⟨wf_append_fresh s _ hwf h, fun r hr _ => List.mem_append_left _ hr⟩
  | updateOp id d now =>
    cases hg : repoGet s id with
    | none =>
      rw [applyOp_update_none s id d now hg]
      exact ⟨hwf, fun r hr _ => hr⟩
    | some c =>
      by_cases hs : c.status = ModelStatus.deleted
      · rw [applyOp_update_deleted s id d now c hg hs]
        exact ⟨hwf, fun r hr _ => hr⟩
      · rw [applyOp_update_live s id d now c hg hs]
        refine ⟨wf_updateWhereId s id d now hwf, ?_⟩
        intro r hr hrdel
        have hrb := deleted_row_beq_false s id c r hwf hg hs hr hrdel
        unfold updateWhereId
        exact List.mem_map.mpr ⟨r, hr, by simp [hrb]⟩
  | deleteOp id isHard now =>
    cases hg : repoGet s id with
    | none =>
      rw [applyOp_delete_none s id isHard now hg]
      exact ⟨hwf, fun r hr _ => hr⟩
    | some c =>
      by_cases hs : c.status = ModelStatus.deleted
      · rw [applyOp_delete_deleted s id isHard now c hg hs]
        exact ⟨hwf, fun r hr _ => hr⟩
      · cases isHard with
        | true =>
          rw [applyOp_delete_live_hard s id now c hg hs]
          refine ⟨wf_destroyWhereId s id hwf, ?_⟩
          intro r hr hrdel
          have hrb := deleted_row_beq_false s id c r hwf hg hs hr hrdel
          unfold destroyWhereId
          exact List.mem_filter.mpr ⟨hr, by simp [hrb]⟩
        | false =>
          rw [applyOp_delete_live_soft s id now c hg hs]
          refine ⟨wf_updateWhereId s id softDeletePatch now hwf, ?_⟩
          intro r hr hrdel
          have hrb := deleted_row_beq_false s id c r hwf hg hs hr hrdel
          unfold updateWhereId
          exact List.mem_map.mpr ⟨r, hr, by simp [hrb]⟩

/-- C6: once a row is soft-deleted, no reachable sequence of exposed
use-case operations ever changes it or removes it — the very row (all
fields equal, status still deleted) is present after running any list
of operations on any well-formed store containing it. -/
theorem c6_soft_delete_terminal (ops : List UCOp) (s : Store) (r : Category)
    (hwf : wfStore s) (hr : r ∈ s) (hdel : r.status = ModelStatus.deleted) :
    r ∈ runOps ops s ∧ r.status = ModelStatus.deleted := by
  induction ops generalizing s with
  | nil => exact ⟨hr, hdel⟩
  | cons op ops ih =>
    obtain ⟨hwf2, hpres⟩ := deleted_preserved_applyOp op s hwf
    exact ih (applyOp op s) hwf2 (hpres r hr hdel)

/-- A sequence of operations aimed at the soft-deleted row "d", for the
C6 witness: reads, updates, soft and hard deletes, a create, a list. -/
def ops6 : List UCOp :=
  [UCOp.getDetailOp "d",
   UCOp.updateOp "d" { status := some ModelStatus.active } 1,
   UCOp.deleteOp "d" false 2,
   UCOp.deleteOp "d" true 3,
   UCOp.createOp { name := "new" } "n" 4,
   UCOp.listOp condAll ⟨1, 10, none⟩]

/-- Witness for C6: after the whole `ops6` sequence the soft-deleted
row "d" is still present unchanged. -/
theorem c6_soft_delete_terminal_witness :
    catDel ∈ runOps ops6 storeDel ∧ catDel.status = ModelStatus.deleted :=
  c6_soft_delete_terminal ops6 storeDel catDel (by decide) (by decide) rfl
